import Mathlib

/-! Verification of the feedback-collection tool (`src/app.py`).

The development shallowly embeds the helper functions of `app.py`:

* `json_loads` models Python's `json.loads` (strict mode, as the `json`
  module configures it by default): JSON values are modelled by the
  inductive `Json`, with numbers kept as their source lexemes since no
  claim inspects numeric magnitudes.
* `reSearchGroups` models the regex search
  `re.search(r"\x60\x60\x60json\s*(\x7b.*\x7d)\s*\x60\x60\x60|(\x7b.*\x7d)", text, re.DOTALL)`
  of `analyze_feedback`, together with `group(1) or group(2)`:
  a leftmost search that at each position first tries the fenced
  alternative and then the bare greedy brace span (`.*` is greedy and,
  under DOTALL, crosses newlines).
* `analyze_feedback` models the function of the same name; the external
  `model.generate_content` call is abstracted by `ExtResult`: either an
  exception (`err`) or a raw response text (`ok`).
* `FileState`, `load_data`, `save_data` model the flat-file store.  A file
  is `absent`, or `stored j` (its text parses under `json.load` to the
  value `j`), or `corrupt` (its text raises `JSONDecodeError`); the
  round-trip of the Python `json` library (`json.dump` output re-parses to
  the dumped value) is assumed at this interface.
* `submitFeedback` models the module-level submission handler
  (`if submitted and review:` block); a `none` result models an uncaught
  Python exception escaping the handler.
-/

namespace Feedback

/-- Python values that `json.loads` can produce.  Numbers are kept as their
source lexemes (no claim inspects numeric magnitude, and this avoids
floating point).  An object is the ordered list of key/value pairs as they
occur in the text; `lookupLast` reproduces the last-key-wins behaviour of
building a Python dict from such pairs. -/
inductive Json where
  | null : Json
  | bool : Bool → Json
  | num : String → Json
  | str : String → Json
  | arr : List Json → Json
  | obj : List (String × Json) → Json
deriving Repr

/-- Left brace character (written via its code point to keep string and
character literals free of braces). -/
def lbrace : Char := Char.ofNat 123

/-- Right brace character. -/
def rbrace : Char := Char.ofNat 125

/-- Backtick character. -/
def btick : Char := Char.ofNat 96

/-- Whitespace recognised by Python's `str.strip` and by `\s` in the ASCII
range: space, tab, newline, carriage return, vertical tab, form feed. -/
def isPySpace (c : Char) : Bool :=
  c == ' ' || c == '\t' || c == '\n' || c == '\r' || c == '\x0b' || c == '\x0c'

/-- Whitespace skipped by the JSON grammar (`json.loads`): space, tab,
newline, carriage return. -/
def isJsonWs (c : Char) : Bool :=
  c == ' ' || c == '\t' || c == '\n' || c == '\r'

/-- Python `str.strip()` on a character list: drop whitespace from both
ends. -/
def pyStripList (cs : List Char) : List Char :=
  ((cs.dropWhile isPySpace).reverse.dropWhile isPySpace).reverse

/-- Consume an exact character sequence from the front of the input,
returning the remainder. -/
def dropExact : List Char → List Char → Option (List Char)
  | [], cs => some cs
  | _ :: _, [] => none
  | p :: ps, c :: cs => if c == p then dropExact ps cs else none

/-- Value of a hexadecimal digit. -/
def hexVal (c : Char) : Option Nat :=
  if '0' ≤ c ∧ c ≤ '9' then some (c.toNat - 48)
  else if 'a' ≤ c ∧ c ≤ 'f' then some (c.toNat - 87)
  else if 'A' ≤ c ∧ c ≤ 'F' then some (c.toNat - 55)
  else none

/-- Body of a JSON string literal, after the opening quote: `json.loads`
in its default strict mode.  Escapes are decoded, a `\uXXXX` high
surrogate followed by a `\uXXXX` low surrogate combines into one code
point, and unescaped control characters (below `0x20`) are rejected.
Returns the decoded string and the input after the closing quote.  The
`fuel` argument only bounds the recursion depth (each step consumes at
least one character, so any fuel above the input length is enough); it
keeps the recursion structural so that applications reduce
definitionally. -/
def parseStr : Nat → List Char → List Char → Option (String × List Char)
  | 0, _, _ => none
  | Nat.succ _, [], _ => none
  | Nat.succ fuel, c :: rest, acc =>
    if c == '\"' then some (String.mk acc.reverse, rest)
    else if c == '\\' then
      match rest with
      | [] => none
      | e :: rest2 =>
        if e == '\"' then parseStr fuel rest2 ('\"' :: acc)
        else if e == '\\' then parseStr fuel rest2 ('\\' :: acc)
        else if e == '/' then parseStr fuel rest2 ('/' :: acc)
        else if e == 'b' then parseStr fuel rest2 ('\x08' :: acc)
        else if e == 'f' then parseStr fuel rest2 ('\x0c' :: acc)
        else if e == 'n' then parseStr fuel rest2 ('\n' :: acc)
        else if e == 'r' then parseStr fuel rest2 ('\r' :: acc)
        else if e == 't' then parseStr fuel rest2 ('\t' :: acc)
        else if e == 'u' then
          match rest2 with
          | h1 :: h2 :: h3 :: h4 :: rest3 =>
            match hexVal h1, hexVal h2, hexVal h3, hexVal h4 with
            | some a, some b, some c3, some d =>
              let n := ((a * 16 + b) * 16 + c3) * 16 + d
              if 55296 ≤ n ∧ n ≤ 56319 then
                match rest3 with
                | s1 :: s2 :: j1 :: j2 :: j3 :: j4 :: rest4 =>
                  if s1 == '\\' && s2 == 'u' then
                    match hexVal j1, hexVal j2, hexVal j3, hexVal j4 with
                    | some a2, some b2, some c2, some d2 =>
                      let m := ((a2 * 16 + b2) * 16 + c2) * 16 + d2
                      if 56320 ≤ m ∧ m ≤ 57343 then
                        parseStr fuel rest4
                          (Char.ofNat (65536 + (n - 55296) * 1024 + (m - 56320)) :: acc)
                      else
                        parseStr fuel (s1 :: s2 :: j1 :: j2 :: j3 :: j4 :: rest4)
                          (Char.ofNat n :: acc)
                    | _, _, _, _ =>
                      parseStr fuel (s1 :: s2 :: j1 :: j2 :: j3 :: j4 :: rest4)
                        (Char.ofNat n :: acc)
                  else
                    parseStr fuel (s1 :: s2 :: j1 :: j2 :: j3 :: j4 :: rest4)
                      (Char.ofNat n :: acc)
                | other => parseStr fuel other (Char.ofNat n :: acc)
              else parseStr fuel rest3 (Char.ofNat n :: acc)
            | _, _, _, _ => none
          | _ => none
        else none
    else if c.toNat < 32 then none
    else parseStr fuel rest (c :: acc)

/-- Optional fraction part of a JSON number (`(\.\d+)?`): returns the
consumed lexeme characters and the remainder; an unmatched lone dot is
left in place, as the optional regex group simply fails to participate. -/
def parseFracPart (cs : List Char) : List Char × List Char :=
  match cs with
  | c :: rest =>
    if c == '.' then
      let ds := rest.takeWhile Char.isDigit
      if ds.isEmpty then ([], cs) else ('.' :: ds, rest.drop ds.length)
    else ([], cs)
  | [] => ([], cs)

/-- Optional exponent part of a JSON number (`([eE][-+]?\d+)?`). -/
def parseExpPart (cs : List Char) : List Char × List Char :=
  match cs with
  | e :: rest =>
    if e == 'e' || e == 'E' then
      match rest with
      | s :: rest2 =>
        if s == '+' || s == '-' then
          let ds := rest2.takeWhile Char.isDigit
          if ds.isEmpty then ([], cs) else (e :: s :: ds, rest2.drop ds.length)
        else
          let ds := rest.takeWhile Char.isDigit
          if ds.isEmpty then ([], cs) else (e :: ds, rest.drop ds.length)
      | [] => ([], cs)
    else ([], cs)
  | [] => ([], cs)

/-- JSON number lexeme per the grammar used by Python's `json` scanner:
`-? (0 | [1-9][0-9]*) (\.[0-9]+)? ([eE][-+]?[0-9]+)?`.  Returns the
matched lexeme and the remainder. -/
def parseNumLex (cs : List Char) : Option (List Char × List Char) :=
  let signed : Bool × List Char :=
    match cs with
    | c :: rest => if c == '-' then (true, rest) else (false, cs)
    | [] => (false, cs)
  let sign : List Char := if signed.1 then ['-'] else []
  match signed.2 with
  | [] => none
  | c :: rest =>
    if c == '0' then
      let (f, cs2) := parseFracPart rest
      let (ex, cs3) := parseExpPart cs2
      some (sign ++ '0' :: (f ++ ex), cs3)
    else if c.isDigit then
      let ds := rest.takeWhile Char.isDigit
      let cs1 := rest.drop ds.length
      let (f, cs2) := parseFracPart cs1
      let (ex, cs3) := parseExpPart cs2
      some (sign ++ c :: (ds ++ f ++ ex), cs3)
    else none

mutual

/-- One JSON value at the head of the input (no leading whitespace),
following Python's scanner: string, object, array, the literals `true`,
`false`, `null`, the Python extensions `NaN`, `Infinity`, `-Infinity`,
then a number.  `fuel` bounds the call depth; callers supply more fuel
than the input length, which suffices because every nested call consumes
at least one character first. -/
def parseVal : Nat → List Char → Option (Json × List Char)
  | 0, _ => none
  | Nat.succ fuel, cs =>
    match cs with
    | [] => none
    | c :: rest =>
      if c == '\"' then
        match parseStr (rest.length + 1) rest [] with
        | some (s, r) => some (Json.str s, r)
        | none => none
      else if c == lbrace then
        let cs2 := rest.dropWhile isJsonWs
        match cs2 with
        | [] => none
        | c2 :: rest2 =>
          if c2 == rbrace then some (Json.obj [], rest2)
          else parseObjMembers fuel cs2 []
      else if c == '[' then
        let cs2 := rest.dropWhile isJsonWs
        match cs2 with
        | [] => none
        | c2 :: rest2 =>
          if c2 == ']' then some (Json.arr [], rest2)
          else parseArrItems fuel cs2 []
      else
        match dropExact ['t', 'r', 'u', 'e'] cs with
        | some r => some (Json.bool true, r)
        | none =>
        match dropExact ['f', 'a', 'l', 's', 'e'] cs with
        | some r => some (Json.bool false, r)
        | none =>
        match dropExact ['n', 'u', 'l', 'l'] cs with
        | some r => some (Json.null, r)
        | none =>
        match dropExact ['N', 'a', 'N'] cs with
        | some r => some (Json.num "NaN", r)
        | none =>
        match dropExact ['I', 'n', 'f', 'i', 'n', 'i', 't', 'y'] cs with
        | some r => some (Json.num "Infinity", r)
        | none =>
        match dropExact ['-', 'I', 'n', 'f', 'i', 'n', 'i', 't', 'y'] cs with
        | some r => some (Json.num "-Infinity", r)
        | none =>
        match parseNumLex cs with
        | some (lex, r) => some (Json.num (String.mk lex), r)
        | none => none

/-- Members of a JSON array, positioned at the start of an element. -/
def parseArrItems : Nat → List Char → List Json → Option (Json × List Char)
  | 0, _, _ => none
  | Nat.succ fuel, cs, acc =>
    match parseVal fuel cs with
    | none => none
    | some (v, r1) =>
      match r1.dropWhile isJsonWs with
      | [] => none
      | c2 :: r2 =>
        if c2 == ',' then parseArrItems fuel (r2.dropWhile isJsonWs) (acc ++ [v])
        else if c2 == ']' then some (Json.arr (acc ++ [v]), r2)
        else none

/-- Members of a JSON object, positioned at the start of a key. -/
def parseObjMembers : Nat → List Char → List (String × Json) → Option (Json × List Char)
  | 0, _, _ => none
  | Nat.succ fuel, cs, acc =>
    match cs with
    | [] => none
    | c :: rest =>
      if c == '\"' then
        match parseStr (rest.length + 1) rest [] with
        | none => none
        | some (k, r1) =>
          match r1.dropWhile isJsonWs with
          | [] => none
          | c3 :: r3 =>
            if c3 == ':' then
              match parseVal fuel (r3.dropWhile isJsonWs) with
              | none => none
              | some (v, r4) =>
                match r4.dropWhile isJsonWs with
                | [] => none
                | c5 :: r5 =>
                  if c5 == ',' then
                    parseObjMembers fuel (r5.dropWhile isJsonWs) (acc ++ [(k, v)])
                  else if c5 == rbrace then some (Json.obj (acc ++ [(k, v)]), r5)
                  else none
            else none
      else none

end

/-- Model of Python `json.loads`: optional surrounding whitespace around a
single JSON value, nothing else. -/
def json_loads (s : String) : Option Json :=
  let cs := s.toList.dropWhile isJsonWs
  match parseVal (cs.length + 1) cs with
  | some (v, r) => if (r.dropWhile isJsonWs).isEmpty then some v else none
  | none => none

/-! Model of the regex search in `analyze_feedback`:
`re.search(r"\x60\x60\x60json\s*(\x7b.*\x7d)\s*\x60\x60\x60|(\x7b.*\x7d)", text, re.DOTALL)`
followed by `json_match.group(1) or json_match.group(2)`.

A Python search scans start positions left to right and, at each
position, tries the alternatives in order; `.*` is greedy and under
DOTALL also consumes newlines, so `\x7b.*\x7d` runs from the opening
brace to the last closing brace of the remaining text. -/

/-- Opening marker of the fenced alternative: three backticks then
`json`. -/
def fenceTag : List Char := [btick, btick, btick, 'j', 's', 'o', 'n']

/-- Closing marker of the fenced alternative: three backticks. -/
def fenceClose : List Char := [btick, btick, btick]

/-- Longest prefix of the input that ends at its last right brace
(inclusive); `none` when the input has no right brace.  This is the
greedy `.*\x7d` after an opening brace. -/
def upToLastRBrace : List Char → Option (List Char)
  | [] => none
  | c :: rest =>
    match upToLastRBrace rest with
    | some t => some (c :: t)
    | none => if c == rbrace then some [c] else none

/-- Greedy body of the fenced alternative, positioned just after the
opening brace: the longest prefix ending at a right brace that is
followed, after optional whitespace, by the closing fence. -/
def greedyFencedBody : List Char → Option (List Char)
  | [] => none
  | c :: rest =>
    match greedyFencedBody rest with
    | some t => some (c :: t)
    | none =>
      if c == rbrace && (dropExact fenceClose (rest.dropWhile isPySpace)).isSome then
        some [c]
      else none

/-- Try the fenced alternative at the current position; on success return
the content of capture group 1 (the brace span inside the fence). -/
def tryFenced (cs : List Char) : Option (List Char) :=
  match dropExact fenceTag cs with
  | none => none
  | some afterTag =>
    match afterTag.dropWhile isPySpace with
    | [] => none
    | c :: rest =>
      if c == lbrace then (greedyFencedBody rest).map (fun t => lbrace :: t)
      else none

/-- Try the bare alternative at the current position: an opening brace,
then greedily to the last right brace of the remaining text (capture
group 2). -/
def tryBare (cs : List Char) : Option (List Char) :=
  match cs with
  | [] => none
  | c :: rest =>
    if c == lbrace then (upToLastRBrace rest).map (fun t => lbrace :: t)
    else none

/-- Leftmost search: at each position try the fenced alternative first,
then the bare one; return the captured group of the first match (the
fenced alternative sets group 1, the bare one group 2, so
`group(1) or group(2)` is exactly the captured span). -/
def reSearchGroups : List Char → Option (List Char)
  | [] => none
  | c :: rest =>
    match tryFenced (c :: rest) with
    | some g => some g
    | none =>
      match tryBare (c :: rest) with
      | some g => some g
      | none => reSearchGroups rest

/-! Model of `analyze_feedback` and of the submission handler. -/

/-- Outcome of the external call `model.generate_content(prompt)` together
with the `response.text` access: either some exception (`err` — network
failure, service error, blocked response, ...) or a raw response text. -/
inductive ExtResult where
  | err : ExtResult
  | ok : String → ExtResult
deriving Repr

/-- User-facing reply of the fixed fallback triple. -/
def fallbackResponseText : String :=
  "Thank you for sharing your experience. We are currently experiencing a system issue and will address your feedback shortly."

/-- Key/value pairs of the fixed fallback triple. -/
def fallbackKvs : List (String × Json) :=
  [("user_response", Json.str fallbackResponseText),
   ("summary", Json.str "System/API Error"),
   ("action", Json.str "Check system logs and API usage.")]

/-- Fixed fallback triple returned by `analyze_feedback` when the external
call or the parse fails (the dict literal in its `except` branch). -/
def fallbackTriple : Json := Json.obj fallbackKvs

/-- Model of `analyze_feedback(rating, review)`.  The rating and review
only flow into the prompt, hence into the external service's behaviour,
which is abstracted by `ext`; the function's own control flow is: on any
exception return the fallback triple, otherwise strip the response text,
search it with the regex, `json.loads` the captured group (or, with no
match, the whole stripped text), and on a parse failure (the exception
path again) return the fallback triple. -/
def analyze_feedback (rating : Int) (review : String) (ext : ExtResult) : Json :=
  match rating, review, ext with
  | _, _, ExtResult.err => fallbackTriple
  | _, _, ExtResult.ok raw =>
    let text := pyStripList raw.toList
    match reSearchGroups text with
    | some g => (json_loads (String.mk g)).getD fallbackTriple
    | none => (json_loads (String.mk text)).getD fallbackTriple

/-- State of the backing file `data.json`.  `stored j` stands for a file
whose text `json.load` parses to the value `j`; `corrupt` stands for an
existing file whose text raises `json.JSONDecodeError`; the `json`
library's dump/load round-trip is assumed at this interface. -/
inductive FileState where
  | absent : FileState
  | stored : Json → FileState
  | corrupt : FileState
deriving Repr

/-- Model of `load_data()`: an absent file and a `JSONDecodeError` both
yield the empty list; otherwise the parsed file content is returned
unchanged (whatever JSON value it is). -/
def load_data : FileState → Json
  | FileState.absent => Json.arr []
  | FileState.corrupt => Json.arr []
  | FileState.stored j => j

/-- Model of `save_data(new_entry)`: load, `data.append(new_entry)`,
rewrite the whole file.  `data.append` is a list method: when `load_data`
returned a non-list JSON value it raises `AttributeError`, modelled by
`none`. -/
def save_data (new_entry : Json) (fs : FileState) : Option FileState :=
  match load_data fs with
  | Json.arr items => some (FileState.stored (Json.arr (items ++ [new_entry])))
  | _ => none

/-- Value of a key in an ordered key/value list, last occurrence winning,
as in a Python dict built from these pairs. -/
def lookupLast (kvs : List (String × Json)) (k : String) : Option Json :=
  match kvs with
  | [] => none
  | (k2, v) :: rest =>
    match lookupLast rest k with
    | some v2 => some v2
    | none => if k2 == k then some v else none

/-- Python `value.get(key, '')`: on a dict return the key's value or the
empty string, on any non-dict value raise `AttributeError` (modelled by
`none`). -/
def pyDictGet (j : Json) (k : String) : Option Json :=
  match j with
  | Json.obj kvs => some ((lookupLast kvs k).getD (Json.str ""))
  | _ => none

/-- The `entry` dict built by the submission handler; `none` models the
`AttributeError` raised by `.get` when the analyzer's result is not a
dict. -/
def mkEntry (ts : String) (rating : Int) (review : String) (ai : Json) : Option Json :=
  match pyDictGet ai "user_response", pyDictGet ai "summary", pyDictGet ai "action" with
  | some r1, some r2, some r3 =>
    some (Json.obj [("timestamp", Json.str ts),
                    ("rating", Json.num (toString rating)),
                    ("review", Json.str review),
                    ("ai_response", r1),
                    ("ai_summary", r2),
                    ("ai_action", r3)])
  | _, _, _ => none

/-- The expression `entry['ai_response']` shown to the user (total here:
every entry built by `mkEntry` has the key). -/
def entryResponse (e : Json) : Json :=
  match e with
  | Json.obj kvs => (lookupLast kvs "ai_response").getD (Json.str "")
  | _ => Json.str ""

/-- Model of the submission handler (the `if submitted and review:` block
run with `submitted = True`): an empty review is falsy and nothing
happens; otherwise the analyzer result is merged into `entry`, saved, and
`entry['ai_response']` is displayed.  The outer `Option` is `none` when an
uncaught exception escapes the handler (there is no try/except around this
block); the inner `Option Json` is the displayed response, `none` when the
block was skipped. -/
def submitFeedback (ts : String) (rating : Int) (review : String) (ext : ExtResult)
    (fs : FileState) : Option (FileState × Option Json) :=
  if review = "" then some (fs, none)
  else
    match mkEntry ts rating review (analyze_feedback rating review ext) with
    | none => none
    | some entry =>
      match save_data entry fs with
      | none => none
      | some fs2 => some (fs2, some (entryResponse entry))

/-- The entry built by the submission handler when the analyzer returned a
dict with pairs `kvs` (each missing key resolving to the empty string). -/
def entryOf (ts : String) (rating : Int) (review : String)
    (kvs : List (String × Json)) : Json :=
  Json.obj [("timestamp", Json.str ts),
            ("rating", Json.num (toString rating)),
            ("review", Json.str review),
            ("ai_response", (lookupLast kvs "user_response").getD (Json.str "")),
            ("ai_summary", (lookupLast kvs "summary").getD (Json.str "")),
            ("ai_action", (lookupLast kvs "action").getD (Json.str ""))]

/-- Shape demanded by the spec for the analyzer's output: a record with
exactly the three string fields `user_response`, `summary`, `action`, all
non-empty. -/
def isGoodTriple (j : Json) : Prop :=
  ∃ a b c, j = Json.obj [("user_response", Json.str a),
                         ("summary", Json.str b),
                         ("action", Json.str c)] ∧
    a ≠ "" ∧ b ≠ "" ∧ c ≠ ""

/-- A stored record with all six fields present, in the order the handler
builds them. -/
def hasSixFields (j : Json) : Prop :=
  ∃ ts r rv a b c, j = Json.obj [("timestamp", ts), ("rating", r), ("review", rv),
    ("ai_response", a), ("ai_summary", b), ("ai_action", c)]

/-! Helper lemmas shared by the claim theorems. -/

/-- Unfolding of `analyze_feedback` on a successful external call. -/
theorem analyze_feedback_ok (rating : Int) (review : String) (raw : String) :
    analyze_feedback rating review (ExtResult.ok raw) =
      (match reSearchGroups (pyStripList raw.toList) with
       | some g => (json_loads (String.mk g)).getD fallbackTriple
       | none => (json_loads (String.mk (pyStripList raw.toList))).getD fallbackTriple) :=
  rfl

/-- Unfolding of `analyze_feedback` when the regex finds a match. -/
theorem analyze_feedback_ok_match (rating : Int) (review : String) (raw : String)
    (g : List Char) (h : reSearchGroups (pyStripList raw.toList) = some g) :
    analyze_feedback rating review (ExtResult.ok raw) =
      (json_loads (String.mk g)).getD fallbackTriple := by
  rw [analyze_feedback_ok, h]

/-- Unfolding of `analyze_feedback` when the regex finds no match. -/
theorem analyze_feedback_ok_nomatch (rating : Int) (review : String) (raw : String)
    (h : reSearchGroups (pyStripList raw.toList) = none) :
    analyze_feedback rating review (ExtResult.ok raw) =
      (json_loads (String.mk (pyStripList raw.toList))).getD fallbackTriple := by
  rw [analyze_feedback_ok, h]

/-- Building the entry from a dict-valued analyzer result never raises. -/
theorem mkEntry_obj (ts : String) (rating : Int) (review : String)
    (kvs : List (String × Json)) :
    mkEntry ts rating review (Json.obj kvs) = some (entryOf ts rating review kvs) :=
  rfl

/-- The full submission path on a dict-valued analyzer result and a store
whose load yields a list. -/
theorem submitFeedback_obj (ts : String) (rating : Int) (review : String)
    (ext : ExtResult) (fs : FileState) (items : List Json)
    (kvs : List (String × Json))
    (hrev : review ≠ "")
    (hai : analyze_feedback rating review ext = Json.obj kvs)
    (hfs : load_data fs = Json.arr items) :
    submitFeedback ts rating review ext fs =
      some (FileState.stored (Json.arr (items ++ [entryOf ts rating review kvs])),
        some ((lookupLast kvs "user_response").getD (Json.str ""))) := by
  unfold submitFeedback
  rw [if_neg hrev, hai, mkEntry_obj]
  unfold save_data
  rw [hfs]
  rfl

/-! Claim theorems. -/

/-- C1: for every rating and review, if the external generation call
raises any exception, or the response text is unparseable (the regex
extracts no JSON payload and direct parsing of the stripped text fails),
then `analyze_feedback` does not raise (it is a total function here) and
returns exactly the fixed fallback triple. -/
theorem analyze_fallback_on_error_or_unparseable (rating : Int) (review : String)
    (ext : ExtResult)
    (h : ext = ExtResult.err ∨ ∃ raw, ext = ExtResult.ok raw ∧
      reSearchGroups (pyStripList raw.toList) = none ∧
      json_loads (String.mk (pyStripList raw.toList)) = none) :
    analyze_feedback rating review ext = fallbackTriple := by
  rcases h with h | ⟨raw, hok, h1, h2⟩
  · subst h; rfl
  · subst hok
    rw [analyze_feedback_ok_nomatch rating review raw h1, h2]
    rfl

/-- Witness for C1: the concrete garbage response from the spec. -/
theorem analyze_fallback_on_error_or_unparseable_w :
    analyze_feedback 3 "ok" (ExtResult.ok "I cannot help with that.") = fallbackTriple :=
  analyze_fallback_on_error_or_unparseable 3 "ok" _
    (Or.inr ⟨"I cannot help with that.", rfl, rfl, rfl⟩)

/-- C2 counterexample: with rating 3 and non-empty review, the external
response text consisting of an empty JSON object parses successfully, and
`analyze_feedback` returns that empty dict, which is not a record with
three non-empty string fields.  The claim quantifies over every possible
external response, so it fails here. -/
theorem analyze_triple_shape_cx :
    ¬ isGoodTriple (analyze_feedback 3 "ok" (ExtResult.ok "\x7b\x7d")) := by
  have h : analyze_feedback 3 "ok" (ExtResult.ok "\x7b\x7d") = Json.obj [] := rfl
  rw [h]
  rintro ⟨a, b, c, hq, -⟩
  injection hq with hl
  exact List.noConfusion hl

/-- C2 amended: for every rating in `[1,5]`, non-empty review and every
possible external response, `analyze_feedback` returns either the fixed
fallback triple — which does have exactly three non-empty string fields —
or the successfully parsed JSON payload extracted from this very
response: the external call succeeded with some raw text, and the result
is exactly what `json.loads` produced on the span the regex captured in
the stripped text (or on the whole stripped text when the regex found no
match); that payload is returned as-is and may have any shape. -/
theorem analyze_triple_shape_amended (rating : Int) (review : String)
    (ext : ExtResult)
    (_hlo : 1 ≤ rating) (_hhi : rating ≤ 5) (_hne : review ≠ "") :
    isGoodTriple fallbackTriple ∧
    (analyze_feedback rating review ext = fallbackTriple ∨
      ∃ raw, ext = ExtResult.ok raw ∧
        ((∃ g, reSearchGroups (pyStripList raw.toList) = some g ∧
            json_loads (String.mk g) = some (analyze_feedback rating review ext)) ∨
          (reSearchGroups (pyStripList raw.toList) = none ∧
            json_loads (String.mk (pyStripList raw.toList)) =
              some (analyze_feedback rating review ext)))) := by
  constructor
  · exact ⟨fallbackResponseText, "System/API Error", "Check system logs and API usage.",
      rfl, by decide, by decide, by decide⟩
  · cases ext with
    | err => exact Or.inl rfl
    | ok raw =>
      cases hm : reSearchGroups (pyStripList raw.toList) with
      | some g =>
        rw [analyze_feedback_ok_match rating review raw g hm]
        cases hl : json_loads (String.mk g) with
        | some v => exact Or.inr ⟨raw, rfl, Or.inl ⟨g, hm, by rw [hl]; rfl⟩⟩
        | none => exact Or.inl rfl
      | none =>
        rw [analyze_feedback_ok_nomatch rating review raw hm]
        cases hl : json_loads (String.mk (pyStripList raw.toList)) with
        | some v => exact Or.inr ⟨raw, rfl, Or.inr ⟨hm, by rw [hl]; rfl⟩⟩
        | none => exact Or.inl rfl

/-- Witness for C2 amended at a concrete input. -/
theorem analyze_triple_shape_amended_w :
    isGoodTriple fallbackTriple ∧
    (analyze_feedback 3 "ok" ExtResult.err = fallbackTriple ∨
      ∃ raw, ExtResult.err = ExtResult.ok raw ∧
        ((∃ g, reSearchGroups (pyStripList raw.toList) = some g ∧
            json_loads (String.mk g) = some (analyze_feedback 3 "ok" ExtResult.err)) ∨
          (reSearchGroups (pyStripList raw.toList) = none ∧
            json_loads (String.mk (pyStripList raw.toList)) =
              some (analyze_feedback 3 "ok" ExtResult.err)))) :=
  analyze_triple_shape_amended 3 "ok" ExtResult.err (by decide) (by decide) (by decide)

/-- C3 counterexample: with a non-empty review and an external response
text of `null` (valid JSON), `analyze_feedback` returns the Python value
`None`, and `None.get(...)` in the handler raises an uncaught
`AttributeError` (modelled by `none`): no record is appended and an error
is shown to the end user instead of a response. -/
theorem submission_total_cx :
    submitFeedback "2025-01-01 00:00:00" 3 "ok" (ExtResult.ok "null")
      FileState.absent = none := rfl

/-- C3 amended: for every submission with a non-empty review, whenever the
analyzer's result is a JSON object (as it is on any external error, any
unparseable response, and any response whose extracted payload is an
object) and the prior file state loads as a list — which holds for every
state the submission path itself can produce, and for absent or corrupt
files — the submission completes with no error visible to the end user: a
record is appended to the store and a response is shown. -/
theorem submission_total_amended (ts : String) (rating : Int) (review : String)
    (ext : ExtResult) (fs : FileState) (items : List Json)
    (kvs : List (String × Json))
    (hrev : review ≠ "")
    (hai : analyze_feedback rating review ext = Json.obj kvs)
    (hfs : load_data fs = Json.arr items) :
    submitFeedback ts rating review ext fs =
      some (FileState.stored (Json.arr (items ++ [entryOf ts rating review kvs])),
        some ((lookupLast kvs "user_response").getD (Json.str ""))) :=
  submitFeedback_obj ts rating review ext fs items kvs hrev hai hfs

/-- Witness for C3 amended: external error, absent file. -/
theorem submission_total_amended_w :
    submitFeedback "t" 3 "ok" ExtResult.err FileState.absent =
      some (FileState.stored (Json.arr ([] ++ [entryOf "t" 3 "ok" fallbackKvs])),
        some ((lookupLast fallbackKvs "user_response").getD (Json.str ""))) :=
  submission_total_amended "t" 3 "ok" ExtResult.err FileState.absent [] fallbackKvs
    (by decide) rfl rfl

set_option maxRecDepth 100000 in
/-- C5: the fenced response text and the bare response text from the spec
both parse inside `analyze_feedback` to the triple `A`/`B`/`C`. -/
theorem fenced_and_direct_parse :
    analyze_feedback 5 "great"
      (ExtResult.ok "\x60\x60\x60json\n\x7b\"user_response\":\"A\",\"summary\":\"B\",\"action\":\"C\"\x7d\n\x60\x60\x60") =
      Json.obj [("user_response", Json.str "A"), ("summary", Json.str "B"),
                ("action", Json.str "C")] ∧
    analyze_feedback 5 "great"
      (ExtResult.ok "\x7b\"user_response\":\"A\",\"summary\":\"B\",\"action\":\"C\"\x7d") =
      Json.obj [("user_response", Json.str "A"), ("summary", Json.str "B"),
                ("action", Json.str "C")] :=
  ⟨rfl, rfl⟩

/-- C7: `load_data` returns the empty list when the backing file is absent
and when its content fails JSON decoding; it is a total function (never
raises) and the corruption is not surfaced to the caller. -/
theorem load_absent_or_corrupt_empty :
    load_data FileState.absent = Json.arr [] ∧
    load_data FileState.corrupt = Json.arr [] :=
  ⟨rfl, rfl⟩

/-- C4 counterexample: a response text containing two well-formed JSON
payloads separated by incidental text.  The claim says the first
well-formed payload is the one extracted; in fact the bare-brace
alternative is greedy, spans from the first opening brace to the last
closing brace of the whole text, fails to parse, and `analyze_feedback`
falls back — the first payload is not extracted. -/
theorem first_payload_cx :
    analyze_feedback 3 "ok"
      (ExtResult.ok "x \x7b\"user_response\":\"A\"\x7d y \x7b\"k\":\"v\"\x7d z") =
      fallbackTriple ∧
    fallbackTriple ≠ Json.obj [("user_response", Json.str "A")] := by
  refine ⟨rfl, ?_⟩
  intro h
  rw [fallbackTriple, fallbackKvs] at h
  injection h with hl
  injection hl with hp ht
  exact List.noConfusion ht

/-- Helper for C4: a list without right braces has no greedy span end. -/
theorem upToLastRBrace_none (cs : List Char) (h : ∀ c ∈ cs, c ≠ rbrace) :
    upToLastRBrace cs = none := by
  induction cs with
  | nil => rfl
  | cons c rest ih =>
    have hc : c ≠ rbrace := h c (List.mem_cons_self c rest)
    simp [upToLastRBrace, ih (fun x hx => h x (List.mem_cons_of_mem c hx)), hc]

/-- Helper for C4: prepending brace-free characters to a suffix with a
greedy span extends the span. -/
theorem upToLastRBrace_append_free (mid tail t : List Char)
    (hmid : ∀ c ∈ mid, c ≠ rbrace) (h : upToLastRBrace tail = some t) :
    upToLastRBrace (mid ++ tail) = some (mid ++ t) := by
  induction mid with
  | nil => simpa using h
  | cons c rest ih =>
    have := ih (fun x hx => hmid x (List.mem_cons_of_mem c hx))
    simp [upToLastRBrace, this]

/-- Helper for C4: with exactly one right brace, the greedy span ends at
it. -/
theorem upToLastRBrace_single (mid post : List Char)
    (hmid : ∀ c ∈ mid, c ≠ rbrace) (hpost : ∀ c ∈ post, c ≠ rbrace) :
    upToLastRBrace (mid ++ rbrace :: post) = some (mid ++ [rbrace]) := by
  apply upToLastRBrace_append_free mid (rbrace :: post) [rbrace] hmid
  simp [upToLastRBrace, upToLastRBrace_none post hpost]

/-- Helper for C4: the fenced alternative needs a backtick at the start
position. -/
theorem tryFenced_not_btick (c : Char) (cs : List Char) (h : c ≠ btick) :
    tryFenced (c :: cs) = none := by
  simp [tryFenced, fenceTag, dropExact, h]

/-- Helper for C4: the bare alternative needs an opening brace at the
start position. -/
theorem tryBare_not_lbrace (c : Char) (cs : List Char) (h : c ≠ lbrace) :
    tryBare (c :: cs) = none := by
  simp [tryBare, h]

/-- The brace characters are distinct from the backtick. -/
theorem lbrace_ne_btick : lbrace ≠ btick := by decide

/-- C4 amended: the parser performs one leftmost regex search over the
stripped text, preferring at each position a ```json-fenced payload and
otherwise a brace span that runs greedily from that opening brace to the
last closing brace of the whole remaining text; only when nothing matches
is the whole text parsed directly.  Consequently, when the text contains
exactly one brace-delimited payload (no other brace anywhere, no
backtick before it), that payload is the extracted span, but with several
payloads the span runs from the first opening brace to the last closing
brace and need not be well-formed (see the counterexample). -/
theorem single_payload_extraction (pre mid post : List Char)
    (hpre : ∀ c ∈ pre, c ≠ lbrace ∧ c ≠ btick)
    (hmid : ∀ c ∈ mid, c ≠ rbrace)
    (hpost : ∀ c ∈ post, c ≠ rbrace) :
    reSearchGroups (pre ++ lbrace :: (mid ++ rbrace :: post)) =
      some (lbrace :: (mid ++ [rbrace])) := by
  induction pre with
  | nil =>
    simp only [List.nil_append, reSearchGroups]
    rw [tryFenced_not_btick lbrace _ lbrace_ne_btick]
    rw [tryBare]
    simp [upToLastRBrace_single mid post hmid hpost]
  | cons c pre2 ih =>
    have hc := hpre c (List.mem_cons_self c pre2)
    simp only [List.cons_append, reSearchGroups]
    rw [tryFenced_not_btick c _ hc.2, tryBare_not_lbrace c _ hc.1]
    exact ih (fun x hx => hpre x (List.mem_cons_of_mem c hx))

/-- Witness for C4 amended: incidental text around one payload. -/
theorem single_payload_extraction_w :
    reSearchGroups ("x ".toList ++ lbrace :: ("\"a\":\"b\"".toList ++ rbrace :: " y".toList)) =
      some (lbrace :: ("\"a\":\"b\"".toList ++ [rbrace])) :=
  single_payload_extraction "x ".toList "\"a\":\"b\"".toList " y".toList
    (by decide) (by decide) (by decide)

/-- C6: when the analyzer's parsed payload is a dict that lacks one of the
three expected keys, the submission does not fail: the corresponding AI
field of the stored record is the empty string, and the record is stored
with all six fields present (shown here for `user_response`; the entry's
other AI fields are likewise `get`-with-default lookups). -/
theorem missing_key_empty_field (ts : String) (rating : Int) (review : String)
    (ext : ExtResult) (fs : FileState) (items : List Json)
    (kvs : List (String × Json))
    (hrev : review ≠ "")
    (hai : analyze_feedback rating review ext = Json.obj kvs)
    (hmiss : lookupLast kvs "user_response" = none)
    (hfs : load_data fs = Json.arr items) :
    submitFeedback ts rating review ext fs =
      some (FileState.stored (Json.arr (items ++ [entryOf ts rating review kvs])),
        some (Json.str "")) ∧
    entryOf ts rating review kvs =
      Json.obj [("timestamp", Json.str ts),
                ("rating", Json.num (toString rating)),
                ("review", Json.str review),
                ("ai_response", Json.str ""),
                ("ai_summary", (lookupLast kvs "summary").getD (Json.str "")),
                ("ai_action", (lookupLast kvs "action").getD (Json.str ""))] := by
  have h2 : entryOf ts rating review kvs =
      Json.obj [("timestamp", Json.str ts),
                ("rating", Json.num (toString rating)),
                ("review", Json.str review),
                ("ai_response", Json.str ""),
                ("ai_summary", (lookupLast kvs "summary").getD (Json.str "")),
                ("ai_action", (lookupLast kvs "action").getD (Json.str ""))] := by
    rw [entryOf, hmiss]
    rfl
  refine ⟨?_, h2⟩
  have h1 := submitFeedback_obj ts rating review ext fs items kvs hrev hai hfs
  rw [h1, hmiss]
  rfl

/-- Witness for C6: a payload missing `user_response`. -/
theorem missing_key_empty_field_w :
    submitFeedback "t" 3 "ok" (ExtResult.ok "\x7b\"summary\":\"B\"\x7d") FileState.absent =
      some (FileState.stored
        (Json.arr ([] ++ [entryOf "t" 3 "ok" [("summary", Json.str "B")]])),
        some (Json.str "")) ∧
    entryOf "t" 3 "ok" [("summary", Json.str "B")] =
      Json.obj [("timestamp", Json.str "t"),
                ("rating", Json.num (toString (3 : Int))),
                ("review", Json.str "ok"),
                ("ai_response", Json.str ""),
                ("ai_summary", (lookupLast [("summary", Json.str "B")] "summary").getD (Json.str "")),
                ("ai_action", (lookupLast [("summary", Json.str "B")] "action").getD (Json.str ""))] :=
  missing_key_empty_field "t" 3 "ok" (ExtResult.ok "\x7b\"summary\":\"B\"\x7d")
    FileState.absent [] [("summary", Json.str "B")] (by decide) rfl rfl rfl

/-- C8: for every prior store state whose load yields the sequence `s`
and every record `e`, `save_data e` succeeds, and `load_data` afterwards
returns `s` with `e` appended: the length grows by exactly one, the first
`|s|` elements are `s`, and the last element is `e` itself
(field-for-field, since it is the very value). -/
theorem append_roundtrip (fs : FileState) (s : List Json) (e : Json)
    (h : load_data fs = Json.arr s) :
    ∃ fs2, save_data e fs = some fs2 ∧
      load_data fs2 = Json.arr (s ++ [e]) ∧
      (s ++ [e]).length = s.length + 1 ∧
      (s ++ [e]).take s.length = s ∧
      (s ++ [e]).getLast? = some e := by
  refine ⟨FileState.stored (Json.arr (s ++ [e])), ?_, rfl, by simp, ?_, ?_⟩
  · unfold save_data
    rw [h]
  · exact List.take_left s [e]
  · exact List.getLast?_concat s

/-- Witness for C8: append to the empty store. -/
theorem append_roundtrip_w :
    ∃ fs2, save_data Json.null FileState.absent = some fs2 ∧
      load_data fs2 = Json.arr ([] ++ [Json.null]) ∧
      (([] : List Json) ++ [Json.null]).length = ([] : List Json).length + 1 ∧
      (([] : List Json) ++ [Json.null]).take ([] : List Json).length = [] ∧
      (([] : List Json) ++ [Json.null]).getLast? = some Json.null :=
  append_roundtrip FileState.absent [] Json.null rfl

/-- C9: whenever the submission handler completes, the store again loads
as a list all of whose records have the six fields `timestamp`, `rating`,
`review`, `ai_response`, `ai_summary`, `ai_action` (assuming the prior
store did, which holds for every state the handler can produce); and when
the analyzer fell back, the newly stored record carries the three fixed
fallback strings in its AI fields rather than omitting them. -/
theorem stored_records_six_fields (ts : String) (rating : Int) (review : String)
    (ext : ExtResult) (fs : FileState) (items : List Json)
    (fs2 : FileState) (disp : Option Json)
    (hfs : load_data fs = Json.arr items)
    (hinv : ∀ e ∈ items, hasSixFields e)
    (hrun : submitFeedback ts rating review ext fs = some (fs2, disp)) :
    ∃ items2, load_data fs2 = Json.arr items2 ∧ (∀ e ∈ items2, hasSixFields e) ∧
      (review ≠ "" → analyze_feedback rating review ext = fallbackTriple →
        items2.getLast? = some (Json.obj
          [("timestamp", Json.str ts),
           ("rating", Json.num (toString rating)),
           ("review", Json.str review),
           ("ai_response", Json.str fallbackResponseText),
           ("ai_summary", Json.str "System/API Error"),
           ("ai_action", Json.str "Check system logs and API usage.")])) := by
  by_cases hrev : review = ""
  · refine ⟨items, ?_, hinv, fun h => absurd hrev h⟩
    have : fs2 = fs := by
      unfold submitFeedback at hrun
      rw [if_pos hrev] at hrun
      exact (Prod.mk.injEq _ _ _ _ ▸ Option.some.injEq _ _ ▸ hrun).1.symm
    rw [this, hfs]
  · cases hai : analyze_feedback rating review ext with
    | obj kvs =>
      have h1 := submitFeedback_obj ts rating review ext fs items kvs hrev hai hfs
      rw [h1] at hrun
      have hfs2 : fs2 = FileState.stored (Json.arr (items ++ [entryOf ts rating review kvs])) :=
        ((Prod.mk.injEq _ _ _ _ ▸ Option.some.injEq _ _ ▸ hrun).1).symm
      refine ⟨items ++ [entryOf ts rating review kvs], by rw [hfs2]; rfl, ?_, ?_⟩
      · intro e he
        rcases List.mem_append.mp he with he | he
        · exact hinv e he
        · rw [List.mem_singleton.mp he]
          exact ⟨Json.str ts, Json.num (toString rating), Json.str review,
            (lookupLast kvs "user_response").getD (Json.str ""),
            (lookupLast kvs "summary").getD (Json.str ""),
            (lookupLast kvs "action").getD (Json.str ""), rfl⟩
      · intro _ hfb
        have hk : kvs = fallbackKvs := by
          rw [fallbackTriple] at hfb
          injection hfb
        rw [hk]
        rw [List.getLast?_concat]
        rfl
    | null =>
      exfalso
      unfold submitFeedback at hrun
      rw [if_neg hrev, hai] at hrun
      exact Option.noConfusion hrun
    | bool b =>
      exfalso
      unfold submitFeedback at hrun
      rw [if_neg hrev, hai] at hrun
      exact Option.noConfusion hrun
    | num s =>
      exfalso
      unfold submitFeedback at hrun
      rw [if_neg hrev, hai] at hrun
      exact Option.noConfusion hrun
    | str s =>
      exfalso
      unfold submitFeedback at hrun
      rw [if_neg hrev, hai] at hrun
      exact Option.noConfusion hrun
    | arr l =>
      exfalso
      unfold submitFeedback at hrun
      rw [if_neg hrev, hai] at hrun
      exact Option.noConfusion hrun

/-- Witness for C9: the fallback path on an absent store. -/
theorem stored_records_six_fields_w :
    ∃ items2,
      load_data (FileState.stored (Json.arr [entryOf "t" 3 "ok" fallbackKvs])) =
        Json.arr items2 ∧
      (∀ e ∈ items2, hasSixFields e) ∧
      (("ok" : String) ≠ "" → analyze_feedback 3 "ok" ExtResult.err = fallbackTriple →
        items2.getLast? = some (Json.obj
          [("timestamp", Json.str "t"),
           ("rating", Json.num (toString (3 : Int))),
           ("review", Json.str "ok"),
           ("ai_response", Json.str fallbackResponseText),
           ("ai_summary", Json.str "System/API Error"),
           ("ai_action", Json.str "Check system logs and API usage.")])) :=
  stored_records_six_fields "t" 3 "ok" ExtResult.err FileState.absent []
    (FileState.stored (Json.arr [entryOf "t" 3 "ok" fallbackKvs]))
    (some ((lookupLast fallbackKvs "user_response").getD (Json.str "")))
    rfl (fun e he => absurd he (List.not_mem_nil e)) rfl

/-- C10: when the backing file exists but its content raises a JSON decode
error, `load_data` treats it as empty, so `save_data r` silently rewrites
the file to the one-element list containing only `r`; no error is
surfaced (the result is `some`, and nothing records the lost content). -/
theorem corrupt_store_overwritten (e : Json) :
    save_data e FileState.corrupt = some (FileState.stored (Json.arr [e])) := rfl

end Feedback
